import Mathlib

/-!
Verification of the provider-registry and model-resolution core of the
zen-mcp-server repository, as a shallow embedding in Lean 4.

The registry (`src/providers/registry.py`) is embedded directly from the
source: the process-wide singleton state becomes an explicit `RegistryState`
value threaded through the operations, Python dicts become insertion-ordered
association lists, the environment becomes a function `String → Option String`,
and the external restriction service becomes an explicit record of its
`is_allowed` predicate.  The OpenAI-compatible provider and the conversation
memory module are not part of the provided sources; they are modelled from the
specification (see the doc comments marked `Modelled from the spec:`).
-/

namespace ZenMCP

/-- Provider kind enum (`providers/base.py` `ProviderType`); the spec states the
enum currently has one family, the OpenAI-compatible one. -/
inductive ProviderType
  | OPENAI
deriving DecidableEq

/-- A provider class as the registry sees it: something that can be constructed
from an API key and then answers `list_models`.  `list_models` returning `none`
models a `NotImplementedError` raise; `cls_id` distinguishes distinct classes. -/
structure ProviderClass where
  cls_id : Nat
  list_models : Bool → Option (List String)

/-- An initialized provider instance: the class it was constructed from plus
the API key it was constructed with (`provider_class(api_key=api_key)`). -/
structure ProviderInstance where
  cls : ProviderClass
  api_key : String

/-- The registry's two mappings (`_providers` and the instance cache), as
insertion-ordered association lists mirroring Python dicts. -/
structure RegistryState where
  providers : List (ProviderType × ProviderClass)
  initialized_providers : List (ProviderType × ProviderInstance)

/-- The process environment, `os.getenv`. -/
def Env : Type := String → Option String

/-- Python dict assignment `d[k] = v`: update in place if the key is present
(keeping its position), otherwise append at the end. -/
def dictInsert {K V : Type} [DecidableEq K] : List (K × V) → K → V → List (K × V)
  | [], k, v => [(k, v)]
  | (a, b) :: t, k, v => if a = k then (k, v) :: t else (a, b) :: dictInsert t k v

/-- Python dict lookup `d.get(k)` on an association list. -/
def alistLookup {K V : Type} [DecidableEq K] : List (K × V) → K → Option V
  | [], _ => none
  | (a, b) :: t, k => if a = k then some b else alistLookup t k

/-- Python truthiness of an optional string: `None` and `""` are falsy. -/
def optTruthy : Option String → Bool
  | none => false
  | some s => if s = "" then false else true

/-- `ModelProviderRegistry._get_api_key_for_provider`: `key_mapping` dict. -/
def key_mapping : ProviderType → Option String
  | ProviderType.OPENAI => some "OPENAI_API_KEY"

/-- `ModelProviderRegistry._get_api_key_for_provider`: look up the env var name
for the kind, then read it from the environment. -/
def get_api_key_for_provider (env : Env) (provider_type : ProviderType) : Option String :=
  match key_mapping provider_type with
  | none => none
  | some env_var => env env_var

/-- `ModelProviderRegistry.register_provider`: overwrite the kind-to-class
registration; the instance cache is not touched. -/
def register_provider (st : RegistryState) (provider_type : ProviderType)
    (provider_class : ProviderClass) : RegistryState :=
  { st with providers := dictInsert st.providers provider_type provider_class }

/-- `ModelProviderRegistry.get_provider`: return the cached instance unless
`force_new`; otherwise return `none` if the kind is unregistered or the API key
is missing/falsy, else construct a fresh instance and cache it. -/
def get_provider (env : Env) (st : RegistryState) (provider_type : ProviderType)
    (force_new : Bool) : Option ProviderInstance × RegistryState :=
  if force_new = false ∧ (alistLookup st.initialized_providers provider_type).isSome = true then
    (alistLookup st.initialized_providers provider_type, st)
  else
    match alistLookup st.providers provider_type with
    | none => (none, st)
    | some provider_class =>
      match get_api_key_for_provider env provider_type with
      | none => (none, st)
      | some api_key =>
        -- `if not api_key` in Python is falsy for both None and ""
        if api_key = "" then (none, st)
        else
          let provider : ProviderInstance := { cls := provider_class, api_key := api_key }
          (some provider,
           { st with initialized_providers :=
               dictInsert st.initialized_providers provider_type provider })

/-- `ModelProviderRegistry.clear_cache`: drop initialized instances only. -/
def clear_cache (st : RegistryState) : RegistryState :=
  { st with initialized_providers := [] }

/-- `ModelProviderRegistry.unregister_provider`: drop both the registration and
the cached instance for the kind. -/
def unregister_provider (st : RegistryState) (provider_type : ProviderType) : RegistryState :=
  { providers := st.providers.filter (fun p => decide (p.1 ≠ provider_type)),
    initialized_providers :=
      st.initialized_providers.filter (fun p => decide (p.1 ≠ provider_type)) }

/-- The external restriction policy service (`utils.model_restrictions`),
consumed through its `is_allowed(provider_kind, model_name)` predicate. -/
structure RestrictionService where
  is_allowed : ProviderType → String → Bool

/-- Inner loop body of `get_available_models` for one listed model name.  The
`Nat` component counts invocations of `restriction_service.is_allowed`, which
the Python short-circuit `restriction_service and not respect_restrictions and
not is_allowed(...)` performs only when the service is set and
`respect_restrictions` is false. -/
def gam_inner_step (restriction_service : Option RestrictionService)
    (respect_restrictions : Bool) (provider_type : ProviderType)
    (acc : List (String × ProviderType) × Nat) (model_name : String) :
    List (String × ProviderType) × Nat :=
  match restriction_service with
  | none => (dictInsert acc.1 model_name provider_type, acc.2)
  | some service =>
    if respect_restrictions then (dictInsert acc.1 model_name provider_type, acc.2)
    else if service.is_allowed provider_type model_name then
      (dictInsert acc.1 model_name provider_type, acc.2 + 1)
    else (acc.1, acc.2 + 1)

/-- Outer loop body of `get_available_models` for one registered provider kind:
get the provider (threading the instance cache), skip it when unavailable or
when `list_models` raises `NotImplementedError`, else fold its model names in. -/
def gam_step (env : Env) (restriction_service : Option RestrictionService)
    (respect_restrictions : Bool)
    (acc : List (String × ProviderType) × RegistryState × Nat)
    (entry : ProviderType × ProviderClass) :
    List (String × ProviderType) × RegistryState × Nat :=
  let res := get_provider env acc.2.1 entry.1 false
  match res.1 with
  | none => (acc.1, res.2, acc.2.2)
  | some provider =>
    match provider.cls.list_models respect_restrictions with
    | none => (acc.1, res.2, acc.2.2)
    | some available =>
      let inner := available.foldl
        (gam_inner_step restriction_service respect_restrictions entry.1) (acc.1, acc.2.2)
      (inner.1, res.2, inner.2)

/-- `ModelProviderRegistry.get_available_models`: `restriction_service` is set
only when `respect_restrictions` is true; iterate registered kinds in insertion
order, unioning each available provider's listing.  Returns the model map, the
final registry state, and the number of `is_allowed` invocations made. -/
def get_available_models (env : Env) (service : RestrictionService) (st : RegistryState)
    (respect_restrictions : Bool) :
    List (String × ProviderType) × RegistryState × Nat :=
  let restriction_service := if respect_restrictions then some service else none
  st.providers.foldl (gam_step env restriction_service respect_restrictions) ([], st, 0)

/-- One step of the plain per-provider union: the spec-side description of
`get_available_models` with no restriction machinery at all. -/
def union_step (env : Env) (respect_restrictions : Bool)
    (acc : List (String × ProviderType) × RegistryState)
    (entry : ProviderType × ProviderClass) :
    List (String × ProviderType) × RegistryState :=
  let res := get_provider env acc.2 entry.1 false
  match res.1 with
  | none => (acc.1, res.2)
  | some provider =>
    match provider.cls.list_models respect_restrictions with
    | none => (acc.1, res.2)
    | some available =>
      (available.foldl (fun ms n => dictInsert ms n entry.1) acc.1, res.2)

/-- The union of each available provider's `list_models` output mapped to its
provider kind, with no registry-level filtering: the reference value the
returned mapping of `get_available_models` is compared against. -/
def provider_model_union (env : Env) (st : RegistryState) (respect_restrictions : Bool) :
    List (String × ProviderType) × RegistryState :=
  st.providers.foldl (union_step env respect_restrictions) ([], st)

/-- `tools.models.ToolModelCategory`. -/
inductive ToolModelCategory
  | EXTENDED_REASONING
  | FAST_RESPONSE
  | BALANCED
deriving DecidableEq

/-- `ModelProviderRegistry.get_preferred_fallback_model`: fixed ordered
preference lists per category over the restriction-filtered available models,
with hardcoded defaults when nothing is available. -/
def get_preferred_fallback_model (env : Env) (service : RestrictionService)
    (st : RegistryState) (tool_category : Option ToolModelCategory) : String :=
  let available_models := (get_available_models env service st true).1
  let openai_models :=
    (available_models.filter (fun p => decide (p.2 = ProviderType.OPENAI))).map (fun p => p.1)
  let openai_available := !openai_models.isEmpty
  match tool_category with
  | some ToolModelCategory.EXTENDED_REASONING =>
    if openai_available && openai_models.contains "o3" then "o3"
    else if openai_available && openai_models.contains "o3-pro" then "o3-pro"
    else if openai_available && openai_models.contains "deepseek-r1" then "deepseek-r1"
    else if openai_available && !openai_models.isEmpty then openai_models.headD "gpt-4"
    else "gpt-4"
  | some ToolModelCategory.FAST_RESPONSE =>
    if openai_available && openai_models.contains "o4-mini" then "o4-mini"
    else if openai_available && openai_models.contains "o3-mini" then "o3-mini"
    else if openai_available && openai_models.contains "flash" then "flash"
    else if openai_available && openai_models.contains "gpt-4o-mini" then "gpt-4o-mini"
    else if openai_available && !openai_models.isEmpty then openai_models.headD "gpt-4o-mini"
    else "gpt-4o-mini"
  | _ =>
    if openai_available && openai_models.contains "o4-mini" then "o4-mini"
    else if openai_available && openai_models.contains "o3-mini" then "o3-mini"
    else if openai_available && openai_models.contains "pro" then "pro"
    else if openai_available && openai_models.contains "gpt-4o" then "gpt-4o"
    else if openai_available && !openai_models.isEmpty then openai_models.headD "gpt-4o"
    else "gpt-4o"

/-- A provider class is well formed when every model name it ever lists is
non-empty (true of the repository's capability catalogs, whose canonical names
and aliases are concrete non-empty strings). -/
def GoodCls (c : ProviderClass) : Prop :=
  ∀ b names, c.list_models b = some names → ¬ ("" ∈ names)

/-- A registry state is well formed when every registered class and every
cached instance's class is well formed. -/
def WFState (st : RegistryState) : Prop :=
  (∀ pt c, (pt, c) ∈ st.providers → GoodCls c) ∧
  (∀ pt inst, (pt, inst) ∈ st.initialized_providers → GoodCls inst.cls)

/-- An environment with no variables set. -/
def env_unset : Env := fun _ => none

/-- An environment where the OpenAI credential variable is set to the empty
string. -/
def env_empty_key : Env := fun v => if v = "OPENAI_API_KEY" then some "" else none

/-- An environment where the OpenAI credential variable is set to a test key. -/
def env_with_key : Env := fun v => if v = "OPENAI_API_KEY" then some "test-key" else none

/-- A restriction service allowing everything. -/
def allow_all_service : RestrictionService := { is_allowed := fun _ _ => true }

/-- A concrete provider class used in witnesses. -/
def cls_a : ProviderClass :=
  { cls_id := 0, list_models := fun _ => some ["o3", "gemini-2.5-pro"] }

/-- A second, different concrete provider class used in witnesses. -/
def cls_b : ProviderClass :=
  { cls_id := 1, list_models := fun _ => some ["o3"] }

/-- A concrete initialized instance of `cls_a`. -/
def inst_a : ProviderInstance := { cls := cls_a, api_key := "test-key" }

/-- The registry state with zero registered providers and an empty cache. -/
def empty_state : RegistryState := { providers := [], initialized_providers := [] }

/-- A state with one registered kind and an empty instance cache. -/
def registered_state : RegistryState :=
  { providers := [(ProviderType.OPENAI, cls_a)], initialized_providers := [] }

/-- A state with one registered kind and a cached initialized instance. -/
def cached_state : RegistryState :=
  { providers := [(ProviderType.OPENAI, cls_a)],
    initialized_providers := [(ProviderType.OPENAI, inst_a)] }

/-- Modelled from the spec: `ConversationTurn` of `utils/conversation_memory.py`,
which is not under src/ (only its tests are).  An immutable record of one turn,
with optional ordered lists of file and image references (§3). -/
structure ConversationTurn where
  role : String
  content : String
  timestamp : String
  files : Option (List String) := none
  images : Option (List String) := none
  tool_name : Option String := none

/-- Modelled from the spec: `ThreadContext` of `utils/conversation_memory.py`,
which is not under src/.  Ordered turns in chronological append order, an
opaque initial context, and an optional weak parent link (§3). -/
structure ThreadContext where
  thread_id : String
  created_at : String
  last_updated_at : String
  tool_name : String
  turns : List ConversationTurn
  initial_context : List (String × String)
  parent_thread_id : Option String := none

/-- One step of the image collection loop: skip a reference already seen,
otherwise record it as seen and append it to the output. -/
def collectStep (acc : List String × List String) (img : String) :
    List String × List String :=
  if img ∈ acc.1 then acc else (img :: acc.1, acc.2 ++ [img])

/-- Modelled from the spec: `get_conversation_image_list` of
`utils/conversation_memory.py`, which is not under src/.  Walks the turns of
the supplied context newest-to-oldest, collecting image references in stored
within-turn order and keeping only the first (newest) occurrence of each
reference string (§4.4); a turn whose `images` field is absent contributes
nothing. -/
def get_conversation_image_list (ctx : ThreadContext) : List String :=
  ((ctx.turns.reverse).foldl
    (fun acc turn => (turn.images.getD []).foldl collectStep acc) ([], [])).2

/-- Keep-first deduplication: the first occurrence of each element wins, both
for inclusion and for its position.  This is the spec-side description of
"newest occurrence wins" over the newest-first flattened image list. -/
def dedupKeepFirst : List String → List String
  | [] => []
  | x :: xs => x :: dedupKeepFirst (xs.filter (fun y => decide (y ≠ x)))
termination_by l => l.length
decreasing_by
  simp only [List.length_cons]
  exact Nat.lt_succ_of_le (List.length_filter_le _ _)

/-- The three-turn context of the claim's example: images
`[["old","shared"], ["mid"], ["shared","new"]]` in oldest-to-newest order. -/
def example_context : ThreadContext :=
  { thread_id := "t-1"
    created_at := "2025-01-01T00:00:00Z"
    last_updated_at := "2025-01-01T02:00:00Z"
    tool_name := "chat"
    turns :=
      [ { role := "user", content := "Turn 1", timestamp := "2025-01-01T00:00:00Z",
          images := some ["old", "shared"] },
        { role := "assistant", content := "Turn 2", timestamp := "2025-01-01T01:00:00Z",
          images := some ["mid"] },
        { role := "user", content := "Turn 3", timestamp := "2025-01-01T02:00:00Z",
          images := some ["shared", "new"] } ]
    initial_context := [] }

/-- Modelled from the spec: temperature constraints of the capability catalog
(`providers/base.py`, not under src/): either a mandated fixed value or an
allowed numeric range (§3). -/
inductive TemperatureConstraint
  | fixed (value : ℚ)
  | range (low high : ℚ)
deriving DecidableEq

/-- Modelled from the spec: the per-model static metadata record
`ModelCapabilities` (`providers/base.py`, not under src/), restricted to the
fields the claims exercise (§3). -/
structure ModelCapabilities where
  model_name : String
  friendly_name : String
  context_window : Nat
  provider : ProviderType
  aliases : List String
  supports_extended_thinking : Bool
  temperature_constraint : TemperatureConstraint
deriving DecidableEq

/-- Modelled from the spec: the OpenAI provider's static capability catalog
(`providers/openai_provider.py`, not under src/), with the canonical names,
aliases, friendly names, context windows and temperature constraints asserted
by `src/tests/test_openai_provider.py`. -/
def SUPPORTED_MODELS : List ModelCapabilities :=
  [ { model_name := "o3", friendly_name := "OpenAI (O3)", context_window := 200000,
      provider := ProviderType.OPENAI, aliases := [],
      supports_extended_thinking := false,
      temperature_constraint := TemperatureConstraint.fixed 1 },
    { model_name := "o3-pro-2025-06-10", friendly_name := "OpenAI (O3-Pro)",
      context_window := 200000,
      provider := ProviderType.OPENAI, aliases := ["o3-pro"],
      supports_extended_thinking := false,
      temperature_constraint := TemperatureConstraint.fixed 1 },
    { model_name := "o4-mini", friendly_name := "OpenAI (O4-mini)",
      context_window := 200000,
      provider := ProviderType.OPENAI, aliases := ["o4mini"],
      supports_extended_thinking := false,
      temperature_constraint := TemperatureConstraint.fixed 1 },
    { model_name := "gemini-2.5-pro", friendly_name := "Gemini (Pro 2.5)",
      context_window := 1048576,
      provider := ProviderType.OPENAI, aliases := ["pro"],
      supports_extended_thinking := false,
      temperature_constraint := TemperatureConstraint.range 0 2 },
    { model_name := "gemini-2.5-flash", friendly_name := "Gemini (Flash 2.5)",
      context_window := 1048576,
      provider := ProviderType.OPENAI, aliases := ["flash"],
      supports_extended_thinking := false,
      temperature_constraint := TemperatureConstraint.range 0 2 } ]

/-- Modelled from the spec: `_resolve_model_name` of the OpenAI-compatible
provider (not under src/): case-sensitive exact match against canonical names
first, else alias lookup, else pass the name through unchanged (§4.1). -/
def resolve_model_name (name : String) : String :=
  if SUPPORTED_MODELS.any (fun caps => caps.model_name == name) then name
  else
    match SUPPORTED_MODELS.find? (fun caps => caps.aliases.contains name) with
    | some caps => caps.model_name
    | none => name

/-- Errors surfaced by provider request validation (§7). -/
inductive GenError
  | invalidParameter
  | modelNotFound
deriving DecidableEq

/-- Modelled from the spec: the two backend call shapes (§6): the standard
chat-completion shape with a role-tagged message list, and the extended-compute
shape with a single input block of role plus textual content.  Both carry the
effective temperature the provider settled on. -/
inductive BackendRequest
  | chatCompletions (model : String) (messages : List (String × String)) (temperature : ℚ)
  | responses (model : String) (input_role : String) (input_text : String) (temperature : ℚ)
deriving DecidableEq

/-- The model field of the outbound wire request. -/
def BackendRequest.modelField : BackendRequest → String
  | BackendRequest.chatCompletions m _ _ => m
  | BackendRequest.responses m _ _ _ => m

/-- The temperature carried by the outbound wire request. -/
def BackendRequest.temperatureField : BackendRequest → ℚ
  | BackendRequest.chatCompletions _ _ t => t
  | BackendRequest.responses _ _ _ t => t

/-- Whether the request uses the extended-compute (responses) endpoint shape. -/
def BackendRequest.isResponsesShape : BackendRequest → Bool
  | BackendRequest.chatCompletions _ _ _ => false
  | BackendRequest.responses _ _ _ _ => true

/-- Modelled from the spec: the wrapped provider response, carrying the
canonical model name and a free-form metadata map that records which endpoint
shape was used (§4.2). -/
structure ModelResponse where
  content : String
  model_name : String
  metadata : List (String × String)
deriving DecidableEq

/-- Capability lookup by canonical model name over the catalog. -/
def find_capabilities (name : String) : Option ModelCapabilities :=
  SUPPORTED_MODELS.find? (fun caps => caps.model_name == name)

/-- The canonical name of the distinguished extended-compute model (o3-pro). -/
def EXTENDED_COMPUTE_MODEL : String := "o3-pro-2025-06-10"

/-- Temperature tie-break policy (§4.2): fixed-temperature models always use
their mandated value regardless of caller input; other models use the caller's
value if within the allowed range, else fail with `InvalidParameterError`. -/
def effective_temperature : TemperatureConstraint → ℚ → Except GenError ℚ
  | TemperatureConstraint.fixed v, _ => Except.ok v
  | TemperatureConstraint.range low high, t =>
    if low ≤ t ∧ t ≤ high then Except.ok t else Except.error GenError.invalidParameter

/-- Modelled from the spec: `generate_content` of the OpenAI-compatible
provider (not under src/): resolve the alias to the canonical name before
constructing the backend call, apply the temperature policy, route the
distinguished extended-compute model to the responses shape and every other
model to the chat-completion shape, and wrap the backend's reply in a response
carrying the canonical name and an endpoint metadata entry (§4.2, §6).  The
`backend` argument stands for the external HTTP client. -/
def generate_content (backend : BackendRequest → String) (prompt : String)
    (model_name : String) (temperature : ℚ) :
    Except GenError (BackendRequest × ModelResponse) :=
  let resolved := resolve_model_name model_name
  match find_capabilities resolved with
  | none => Except.error GenError.modelNotFound
  | some caps =>
    match effective_temperature caps.temperature_constraint temperature with
    | Except.error e => Except.error e
    | Except.ok t =>
      if resolved == EXTENDED_COMPUTE_MODEL then
        let req := BackendRequest.responses resolved "user" prompt t
        Except.ok (req,
          { content := backend req, model_name := resolved,
            metadata := [("endpoint", "responses")] })
      else
        let req := BackendRequest.chatCompletions resolved [("user", prompt)] t
        Except.ok (req,
          { content := backend req, model_name := resolved,
            metadata := [("endpoint", "chat_completions")] })

/-- A concrete stand-in backend used in witnesses. -/
def stub_backend : BackendRequest → String := fun _ => "Test response"

theorem alistLookup_mem {K V : Type} [DecidableEq K] {l : List (K × V)} {k : K} {v : V}
    (h : alistLookup l k = some v) : (k, v) ∈ l := by
  induction l with
  | nil => simp [alistLookup] at h
  | cons hd tl ih =>
    obtain ⟨a, b⟩ := hd
    by_cases hak : a = k
    · subst hak
      simp [alistLookup] at h
      subst h
      exact List.mem_cons_self _ _
    · simp [alistLookup, hak] at h
      exact List.mem_cons_of_mem _ (ih h)

theorem dictInsert_mem {K V : Type} [DecidableEq K] {l : List (K × V)} {k : K} {v : V}
    {p : K × V} (h : p ∈ dictInsert l k v) : p ∈ l ∨ p = (k, v) := by
  induction l with
  | nil =>
    simp [dictInsert] at h
    exact Or.inr h
  | cons hd tl ih =>
    obtain ⟨a, b⟩ := hd
    by_cases hak : a = k
    · subst hak
      simp [dictInsert] at h
      rcases h with h | h
      · exact Or.inr h
      · exact Or.inl (List.mem_cons_of_mem _ h)
    · simp [dictInsert, hak] at h
      rcases h with h | h
      · exact Or.inl (by simp [h])
      · rcases ih h with h2 | h2
        · exact Or.inl (List.mem_cons_of_mem _ h2)
        · exact Or.inr h2

theorem alistLookup_dictInsert_self {K V : Type} [DecidableEq K] (l : List (K × V))
    (k : K) (v : V) : alistLookup (dictInsert l k v) k = some v := by
  induction l with
  | nil => simp [dictInsert, alistLookup]
  | cons hd tl ih =>
    obtain ⟨a, b⟩ := hd
    by_cases hak : a = k
    · subst hak
      simp [dictInsert, alistLookup]
    · simp [dictInsert, alistLookup, hak, ih]

theorem get_provider_providers (env : Env) (st : RegistryState) (pt : ProviderType)
    (f : Bool) : ((get_provider env st pt f).2).providers = st.providers := by
  unfold get_provider
  repeat' split
  all_goals rfl

/-- C6: `get_provider` returns an unavailable result (`none`, with the state
untouched) rather than failing when the kind was never registered or when no
credential is configured for it (where, as in Python, a credential that is
`None` or the empty string is not configured); when a cached initialized
instance exists and `force_new` is false, that cached instance is returned. -/
theorem get_provider_unavailable_not_error :
    ∀ (env : Env) (st : RegistryState) (pt : ProviderType) (force_new : Bool),
    (alistLookup st.providers pt = none → alistLookup st.initialized_providers pt = none →
      get_provider env st pt force_new = (none, st)) ∧
    (optTruthy (get_api_key_for_provider env pt) = false →
      alistLookup st.initialized_providers pt = none →
      get_provider env st pt force_new = (none, st)) ∧
    (∀ inst, alistLookup st.initialized_providers pt = some inst →
      get_provider env st pt false = (some inst, st)) := by
  intro env st pt force_new
  refine ⟨?_, ?_, ?_⟩
  · intro hreg hcache
    simp [get_provider, hcache, hreg]
  · intro hkey hcache
    simp [get_provider, hcache]
    cases hreg : alistLookup st.providers pt with
    | none => simp
    | some c =>
      cases hk : get_api_key_for_provider env pt with
      | none => simp
      | some s =>
        rw [hk] at hkey
        have hs : s = "" := by
          by_contra hne
          simp [optTruthy, hne] at hkey
        simp [hs]
  · intro inst hcache
    simp [get_provider, hcache]

theorem get_provider_unavailable_not_error_witness :
    alistLookup empty_state.providers ProviderType.OPENAI = none ∧
    alistLookup empty_state.initialized_providers ProviderType.OPENAI = none ∧
    get_provider env_unset empty_state ProviderType.OPENAI false = (none, empty_state) ∧
    alistLookup cached_state.initialized_providers ProviderType.OPENAI = some inst_a ∧
    get_provider env_with_key cached_state ProviderType.OPENAI false =
      (some inst_a, cached_state) :=
  ⟨rfl, rfl,
   (get_provider_unavailable_not_error env_unset empty_state ProviderType.OPENAI false).1
     rfl rfl,
   rfl,
   (get_provider_unavailable_not_error env_with_key cached_state
     ProviderType.OPENAI false).2.2 inst_a rfl⟩

/-- C9: re-registering a kind with a different provider class overwrites only
the kind-to-class registration; the initialized-instance cache is unchanged and
`get_provider` without `force_new` still returns the previously cached
instance of the old class. -/
theorem register_provider_preserves_instance_cache :
    ∀ (env : Env) (st : RegistryState) (pt : ProviderType)
      (c1 c2 : ProviderClass) (inst : ProviderInstance),
    alistLookup st.providers pt = some c1 → c2 ≠ c1 →
    alistLookup st.initialized_providers pt = some inst →
    (register_provider st pt c2).initialized_providers = st.initialized_providers ∧
    alistLookup (register_provider st pt c2).providers pt = some c2 ∧
    get_provider env (register_provider st pt c2) pt false =
      (some inst, register_provider st pt c2) := by
  intro env st pt c1 c2 inst hreg hne hcache
  refine ⟨rfl, ?_, ?_⟩
  · simp [register_provider, alistLookup_dictInsert_self]
  · simp [get_provider, register_provider, hcache]

theorem register_provider_preserves_instance_cache_witness :
    cls_b ≠ cls_a ∧
    (register_provider cached_state ProviderType.OPENAI cls_b).initialized_providers =
      cached_state.initialized_providers ∧
    get_provider env_with_key (register_provider cached_state ProviderType.OPENAI cls_b)
      ProviderType.OPENAI false =
      (some inst_a, register_provider cached_state ProviderType.OPENAI cls_b) := by
  have hne : cls_b ≠ cls_a := fun h => absurd (congrArg ProviderClass.cls_id h) (by decide)
  have h := register_provider_preserves_instance_cache env_with_key cached_state
    ProviderType.OPENAI cls_a cls_b inst_a rfl hne rfl
  exact ⟨hne, h.1, h.2.2⟩

/-- C10: a registered kind whose credential environment variable is set to the
empty string behaves exactly as when the variable is unset: `get_provider`
returns `none` and the state (in particular the instance cache) is unchanged —
any falsy credential value is treated as absent. -/
theorem get_provider_empty_credential_unavailable :
    ∀ (env env2 : Env) (st : RegistryState) (pt : ProviderType) (force_new : Bool)
      (env_var : String),
    key_mapping pt = some env_var → env env_var = some "" → env2 env_var = none →
    alistLookup st.initialized_providers pt = none →
    get_provider env st pt force_new = (none, st) ∧
    get_provider env2 st pt force_new = (none, st) := by
  intro env env2 st pt force_new env_var hkm h1 h2 hcache
  constructor
  · have hk : get_api_key_for_provider env pt = some "" := by
      simp [get_api_key_for_provider, hkm, h1]
    simp [get_provider, hcache]
    cases hreg : alistLookup st.providers pt with
    | none => simp
    | some c => simp [hk]
  · have hk : get_api_key_for_provider env2 pt = none := by
      simp [get_api_key_for_provider, hkm, h2]
    simp [get_provider, hcache]
    cases hreg : alistLookup st.providers pt with
    | none => simp
    | some c => simp [hk]

theorem gam_inner_eq (service : RestrictionService) (respect : Bool) (pt : ProviderType) :
    ∀ (names : List String) (ms : List (String × ProviderType)) (c : Nat),
    names.foldl (gam_inner_step (if respect then some service else none) respect pt) (ms, c) =
      (names.foldl (fun a n => dictInsert a n pt) ms, c) := by
  intro names
  induction names with
  | nil => intro ms c; rfl
  | cons n ns ih =>
    intro ms c
    cases respect <;> simpa [gam_inner_step] using ih (dictInsert ms n pt) c

theorem gam_fold_eq_union (env : Env) (service : RestrictionService) (respect : Bool) :
    ∀ (l : List (ProviderType × ProviderClass)) (ms : List (String × ProviderType))
      (st0 : RegistryState) (c : Nat),
    l.foldl (gam_step env (if respect then some service else none) respect) (ms, st0, c) =
      ((l.foldl (union_step env respect) (ms, st0)).1,
       (l.foldl (union_step env respect) (ms, st0)).2, c) := by
  intro l
  induction l with
  | nil => intro ms st0 c; rfl
  | cons e es ih =>
    intro ms st0 c
    simp only [List.foldl_cons]
    cases hgp : (get_provider env st0 e.1 false).1 with
    | none =>
      have hg : gam_step env (if respect then some service else none) respect (ms, st0, c) e
          = (ms, (get_provider env st0 e.1 false).2, c) := by
        simp [gam_step, hgp]
      have hu : union_step env respect (ms, st0) e
          = (ms, (get_provider env st0 e.1 false).2) := by
        simp [union_step, hgp]
      rw [hg, hu]
      exact ih ms _ c
    | some provider =>
      cases hlm : provider.cls.list_models respect with
      | none =>
        have hg : gam_step env (if respect then some service else none) respect (ms, st0, c) e
            = (ms, (get_provider env st0 e.1 false).2, c) := by
          simp [gam_step, hgp, hlm]
        have hu : union_step env respect (ms, st0) e
            = (ms, (get_provider env st0 e.1 false).2) := by
          simp [union_step, hgp, hlm]
        rw [hg, hu]
        exact ih ms _ c
      | some available =>
        have hg : gam_step env (if respect then some service else none) respect (ms, st0, c) e
            = (available.foldl (fun a n => dictInsert a n e.1) ms,
               (get_provider env st0 e.1 false).2, c) := by
          simp [gam_step, hgp, hlm, gam_inner_eq]
        have hu : union_step env respect (ms, st0) e
            = (available.foldl (fun a n => dictInsert a n e.1) ms,
               (get_provider env st0 e.1 false).2) := by
          simp [union_step, hgp, hlm]
        rw [hg, hu]
        exact ih _ _ c

/-- C1: `get_available_models` returns exactly the union of each available
provider's `list_models` output mapped to its provider kind, with the registry
applying no restriction filtering of its own for either flag value — in
particular the restriction service's `is_allowed` is invoked zero times. -/
theorem get_available_models_no_double_filtering :
    ∀ (env : Env) (service : RestrictionService) (st : RegistryState)
      (respect_restrictions : Bool),
    (get_available_models env service st respect_restrictions).1 =
      (provider_model_union env st respect_restrictions).1 ∧
    (get_available_models env service st respect_restrictions).2.1 =
      (provider_model_union env st respect_restrictions).2 ∧
    (get_available_models env service st respect_restrictions).2.2 = 0 := by
  intro env service st respect
  have h := gam_fold_eq_union env service respect st.providers [] st 0
  refine ⟨?_, ?_, ?_⟩ <;> simp [get_available_models, provider_model_union, h]

theorem get_provider_good (env : Env) (st : RegistryState) (pt : ProviderType) (f : Bool)
    (hwf : WFState st) :
    WFState ((get_provider env st pt f).2) ∧
    (∀ inst, (get_provider env st pt f).1 = some inst → GoodCls inst.cls) := by
  unfold get_provider
  split
  · refine ⟨hwf, fun inst h => hwf.2 pt inst (alistLookup_mem h)⟩
  · cases hreg : alistLookup st.providers pt with
    | none => exact ⟨hwf, fun inst h => by cases h⟩
    | some cls =>
      cases hk : get_api_key_for_provider env pt with
      | none => exact ⟨hwf, fun inst h => by cases h⟩
      | some key =>
        by_cases hke : key = ""
        · simp only [hke, if_pos rfl]
          exact ⟨hwf, fun inst h => by cases h⟩
        · simp only [if_neg hke]
          have hcls : GoodCls cls := hwf.1 pt cls (alistLookup_mem hreg)
          refine ⟨⟨hwf.1, ?_⟩, ?_⟩
          · intro pt2 inst2 hmem
            rcases dictInsert_mem hmem with h | h
            · exact hwf.2 pt2 inst2 h
            · have : inst2 = { cls := cls, api_key := key } := by
                exact congrArg Prod.snd h
              rw [this]
              exact hcls
          · intro inst h
            have : inst = { cls := cls, api_key := key } := by
              injection h with h1
              exact h1.symm
            rw [this]
            exact hcls

theorem union_inner_good (pt : ProviderType) :
    ∀ (names : List String) (ms : List (String × ProviderType)),
    ¬ ("" ∈ names) → (∀ p ∈ ms, p.1 ≠ "") →
    ∀ p ∈ names.foldl (fun a n => dictInsert a n pt) ms, p.1 ≠ "" := by
  intro names
  induction names with
  | nil => intro ms _ hms; simpa using hms
  | cons n ns ih =>
    intro ms hn hms
    simp only [List.foldl_cons]
    apply ih
    · intro h
      exact hn (List.mem_cons_of_mem _ h)
    · intro p hp
      rcases dictInsert_mem hp with h | h
      · exact hms p h
      · rw [h]
        intro he
        apply hn
        rw [← he]
        exact List.mem_cons_self _ _

theorem union_fold_good (env : Env) (respect : Bool) :
    ∀ (l : List (ProviderType × ProviderClass)) (ms : List (String × ProviderType))
      (st0 : RegistryState), WFState st0 → (∀ p ∈ ms, p.1 ≠ "") →
    ∀ p ∈ (l.foldl (union_step env respect) (ms, st0)).1, p.1 ≠ "" := by
  intro l
  induction l with
  | nil => intro ms st0 _ hms; simpa using hms
  | cons e es ih =>
    intro ms st0 hwf hms
    simp only [List.foldl_cons]
    have hgp := get_provider_good env st0 e.1 false hwf
    cases hres : (get_provider env st0 e.1 false).1 with
    | none =>
      have hstep : union_step env respect (ms, st0) e
          = (ms, (get_provider env st0 e.1 false).2) := by
        simp [union_step, hres]
      rw [hstep]
      exact ih ms _ hgp.1 hms
    | some provider =>
      have hgood : GoodCls provider.cls := hgp.2 provider hres
      cases hlm : provider.cls.list_models respect with
      | none =>
        have hstep : union_step env respect (ms, st0) e
            = (ms, (get_provider env st0 e.1 false).2) := by
          simp [union_step, hres, hlm]
        rw [hstep]
        exact ih ms _ hgp.1 hms
      | some available =>
        have hstep : union_step env respect (ms, st0) e
            = (available.foldl (fun a n => dictInsert a n e.1) ms,
               (get_provider env st0 e.1 false).2) := by
          simp [union_step, hres, hlm]
        rw [hstep]
        exact ih _ _ hgp.1 (union_inner_good e.1 available ms (hgood respect available hlm) hms)

theorem available_models_good (env : Env) (service : RestrictionService)
    (st : RegistryState) (respect : Bool) (hwf : WFState st) :
    ∀ p ∈ (get_available_models env service st respect).1, p.1 ≠ "" := by
  intro p hp
  have heq := gam_fold_eq_union env service respect st.providers [] st 0
  have h2 : (get_available_models env service st respect).1 =
      (st.providers.foldl (union_step env respect) ([], st)).1 := by
    simp [get_available_models, heq]
  rw [h2] at hp
  exact union_fold_good env respect st.providers [] st hwf (by simp) p hp

theorem headD_ne_of_all {l : List String} (hall : ∀ m ∈ l, m ≠ "")
    (hne : l.isEmpty = false) (d : String) : l.headD d ≠ "" := by
  cases l with
  | nil => simp at hne
  | cons a t => exact hall a (List.mem_cons_self a t)

/-- C3: for every tool category (including none) and every well-formed registry
state — in particular the state with zero registered providers and zero
available models — `get_preferred_fallback_model` returns a non-empty model
name string; being a total Lean function, it never fails.  Well-formedness
asks only that providers never list the empty string as a model name, which
holds of the repository's catalogs. -/
theorem get_preferred_fallback_model_total :
    ∀ (env : Env) (service : RestrictionService) (st : RegistryState)
      (cat : Option ToolModelCategory), WFState st →
    get_preferred_fallback_model env service st cat ≠ "" := by
  intro env service st cat hwf
  have hgood := available_models_good env service st true hwf
  simp only [get_preferred_fallback_model]
  set oms := ((get_available_models env service st true).1.filter
      (fun p => decide (p.2 = ProviderType.OPENAI))).map (fun p => p.1) with homs
  have homgood : ∀ m ∈ oms, m ≠ "" := by
    intro m hm
    rw [homs] at hm
    simp only [List.mem_map, List.mem_filter] at hm
    obtain ⟨p, ⟨hpmem, _⟩, hpeq⟩ := hm
    rw [← hpeq]
    exact hgood p hpmem
  cases cat with
  | none =>
    repeat' split
    all_goals first
      | decide
      | (rename_i h
         refine headD_ne_of_all homgood ?_ _
         rw [Bool.and_eq_true, Bool.not_eq_true'] at h
         exact h.2)
  | some c =>
    cases c <;>
      · repeat' split
        all_goals first
          | decide
          | (rename_i h
             refine headD_ne_of_all homgood ?_ _
             rw [Bool.and_eq_true, Bool.not_eq_true'] at h
             exact h.2)

theorem get_preferred_fallback_model_total_witness :
    WFState empty_state ∧
    get_preferred_fallback_model env_unset allow_all_service empty_state none ≠ "" := by
  have hwf : WFState empty_state := by
    constructor
    · intro pt c h
      exact absurd h (List.not_mem_nil _)
    · intro pt inst h
      exact absurd h (List.not_mem_nil _)
  exact ⟨hwf,
    get_preferred_fallback_model_total env_unset allow_all_service empty_state none hwf⟩

theorem get_provider_empty_credential_unavailable_witness :
    key_mapping ProviderType.OPENAI = some "OPENAI_API_KEY" ∧
    env_empty_key "OPENAI_API_KEY" = some "" ∧
    env_unset "OPENAI_API_KEY" = none ∧
    alistLookup registered_state.initialized_providers ProviderType.OPENAI = none ∧
    get_provider env_empty_key registered_state ProviderType.OPENAI false =
      (none, registered_state) ∧
    get_provider env_unset registered_state ProviderType.OPENAI false =
      (none, registered_state) := by
  have h := get_provider_empty_credential_unavailable env_empty_key env_unset
    registered_state ProviderType.OPENAI false "OPENAI_API_KEY" rfl rfl rfl rfl
  exact ⟨rfl, rfl, rfl, rfl, h.1, h.2⟩

theorem dedupKeepFirst_cons (x : String) (xs : List String) :
    dedupKeepFirst (x :: xs) = x :: dedupKeepFirst (xs.filter (fun y => decide (y ≠ x))) := by
  rw [dedupKeepFirst]

theorem collect_fold_eq : ∀ (l seen out : List String),
    (l.foldl collectStep (seen, out)).2 =
      out ++ dedupKeepFirst (l.filter (fun y => decide (y ∉ seen))) := by
  intro l
  induction l with
  | nil => intro seen out; simp [dedupKeepFirst]
  | cons x xs ih =>
    intro seen out
    simp only [List.foldl_cons]
    by_cases hx : x ∈ seen
    · have hc : collectStep (seen, out) x = (seen, out) := by simp [collectStep, hx]
      have hfil : (x :: xs).filter (fun y => decide (y ∉ seen)) =
          xs.filter (fun y => decide (y ∉ seen)) := by
        simp [List.filter_cons, hx]
      rw [hc, ih, hfil]
    · have hc : collectStep (seen, out) x = (x :: seen, out ++ [x]) := by
        simp [collectStep, hx]
      have hfil : (x :: xs).filter (fun y => decide (y ∉ seen)) =
          x :: xs.filter (fun y => decide (y ∉ seen)) := by
        simp [List.filter_cons, hx]
      rw [hc, ih, hfil, dedupKeepFirst_cons]
      have hff : xs.filter (fun y => decide (y ∉ x :: seen)) =
          (xs.filter (fun y => decide (y ∉ seen))).filter (fun y => decide (y ≠ x)) := by
        rw [List.filter_filter]
        apply List.filter_congr
        intro y _
        by_cases h1 : y = x <;> by_cases h2 : y ∈ seen <;> simp [h1, h2]
      rw [hff]
      simp

theorem foldl_collect_join : ∀ (L : List (List String)) (acc : List String × List String),
    L.foldl (fun a l => l.foldl collectStep a) acc = (L.flatten).foldl collectStep acc := by
  intro L
  induction L with
  | nil => intro acc; rfl
  | cons l ls ih =>
    intro acc
    simp only [List.flatten_cons, List.foldl_cons, List.foldl_append, ih]

/-- C4: `get_conversation_image_list` walks the context's turns newest-to-oldest
collecting image references with within-turn order preserved, and keeps only
the newest turn's occurrence of any duplicate reference at that occurrence's
newest-first position (keep-first deduplication of the newest-first flattened
list); for the three-turn example with images
`[["old","shared"], ["mid"], ["shared","new"]]` oldest-to-newest the result is
exactly `["shared","new","mid","old"]`. -/
theorem get_conversation_image_list_newest_first :
    (∀ ctx : ThreadContext,
      get_conversation_image_list ctx =
        dedupKeepFirst ((ctx.turns.reverse.map (fun t => t.images.getD [])).flatten)) ∧
    get_conversation_image_list example_context = ["shared", "new", "mid", "old"] := by
  constructor
  · intro ctx
    unfold get_conversation_image_list
    rw [← List.foldl_map (fun t : ConversationTurn => t.images.getD [])
        (fun a l => l.foldl collectStep a)]
    rw [foldl_collect_join, collect_fold_eq]
    have hfil : ∀ (l : List String),
        l.filter (fun y => decide (y ∉ ([] : List String))) = l := by
      intro l
      apply List.filter_eq_self.mpr
      intro a _
      simp
    rw [hfil]
    simp
  · rfl

theorem resolve_canonical {caps : ModelCapabilities} (h : caps ∈ SUPPORTED_MODELS) :
    resolve_model_name caps.model_name = caps.model_name := by
  have hany : SUPPORTED_MODELS.any (fun c => c.model_name == caps.model_name) = true :=
    List.any_eq_true.mpr ⟨caps, h, by simp⟩
  simp [resolve_model_name, hany]

/-- C7: alias-to-canonical resolution is a pure, idempotent function over the
catalog: `resolve (resolve x) = resolve x` for every name, `"pro"` resolves to
`"gemini-2.5-pro"`, `"o3"` (a canonical name, matched case-sensitively and
first) resolves to itself, and a name matching neither a canonical name nor an
alias is passed through unchanged. -/
theorem resolve_model_name_pure_idempotent :
    (∀ x, resolve_model_name (resolve_model_name x) = resolve_model_name x) ∧
    resolve_model_name "pro" = "gemini-2.5-pro" ∧
    resolve_model_name "o3" = "o3" ∧
    (∀ x, SUPPORTED_MODELS.any (fun caps => caps.model_name == x) = false →
      (∀ caps ∈ SUPPORTED_MODELS, caps.aliases.contains x = false) →
      resolve_model_name x = x) := by
  refine ⟨?_, rfl, rfl, ?_⟩
  · intro x
    by_cases h : SUPPORTED_MODELS.any (fun c => c.model_name == x) = true
    · have hx : resolve_model_name x = x := by simp [resolve_model_name, h]
      rw [hx]
      exact hx
    · have h2 : SUPPORTED_MODELS.any (fun c => c.model_name == x) = false := by
        cases hb : SUPPORTED_MODELS.any (fun c => c.model_name == x) with
        | false => rfl
        | true => exact absurd hb h
      cases hf : SUPPORTED_MODELS.find? (fun c => c.aliases.contains x) with
      | none =>
        have hx : resolve_model_name x = x := by
          unfold resolve_model_name
          rw [h2, hf]
          simp
        rw [hx]
        exact hx
      | some caps =>
        have hx : resolve_model_name x = caps.model_name := by
          unfold resolve_model_name
          rw [h2, hf]
          simp
        rw [hx]
        exact resolve_canonical (List.mem_of_find?_eq_some hf)
  · intro x hany halias
    have hf : SUPPORTED_MODELS.find? (fun c => c.aliases.contains x) = none := by
      apply List.find?_eq_none.mpr
      intro caps hmem
      have h3 : x ∉ caps.aliases := by simpa using halias caps hmem
      simp [h3]
    unfold resolve_model_name
    rw [hany, hf]
    simp

theorem resolve_model_name_pure_idempotent_witness :
    SUPPORTED_MODELS.any (fun caps => caps.model_name == "unknown-model-xyz") = false ∧
    (∀ caps ∈ SUPPORTED_MODELS, caps.aliases.contains "unknown-model-xyz" = false) ∧
    resolve_model_name "unknown-model-xyz" = "unknown-model-xyz" :=
  ⟨rfl, by decide,
   resolve_model_name_pure_idempotent.2.2.2 "unknown-model-xyz" rfl (by decide)⟩

/-- C2: every successful `generate_content` call issues the outbound backend
request with the resolved canonical model name (never the alias) and returns a
response carrying the canonical name; in particular for alias `"pro"` with
temperature 1.0 the wire request's model field is exactly `"gemini-2.5-pro"`. -/
theorem generate_content_resolves_alias :
    (∀ (backend : BackendRequest → String) (prompt name : String) (temp : ℚ)
       (r : BackendRequest × ModelResponse),
      generate_content backend prompt name temp = Except.ok r →
      r.1.modelField = resolve_model_name name ∧
      r.2.model_name = resolve_model_name name) ∧
    (∀ (backend : BackendRequest → String) (prompt : String),
      generate_content backend prompt "pro" 1 =
        Except.ok (BackendRequest.chatCompletions "gemini-2.5-pro" [("user", prompt)] 1,
          { content := backend
              (BackendRequest.chatCompletions "gemini-2.5-pro" [("user", prompt)] 1),
            model_name := "gemini-2.5-pro",
            metadata := [("endpoint", "chat_completions")] })) := by
  constructor
  · intro backend prompt name temp r h
    simp only [generate_content] at h
    split at h
    · exact Except.noConfusion h
    · split at h
      · exact Except.noConfusion h
      · split at h
        · injection h with h1
          subst h1
          exact ⟨rfl, rfl⟩
        · injection h with h1
          subst h1
          exact ⟨rfl, rfl⟩
  · intro backend prompt
    rfl

theorem generate_content_resolves_alias_witness :
    generate_content stub_backend "Test prompt" "pro" 1 =
      Except.ok (BackendRequest.chatCompletions "gemini-2.5-pro" [("user", "Test prompt")] 1,
        { content := "Test response", model_name := "gemini-2.5-pro",
          metadata := [("endpoint", "chat_completions")] }) ∧
    (BackendRequest.chatCompletions "gemini-2.5-pro" [("user", "Test prompt")] 1).modelField =
      resolve_model_name "pro" ∧
    ({ content := "Test response", model_name := "gemini-2.5-pro",
       metadata := [("endpoint", "chat_completions")] } : ModelResponse).model_name =
      resolve_model_name "pro" := by
  have h := generate_content_resolves_alias.1 stub_backend "Test prompt" "pro" 1
    (BackendRequest.chatCompletions "gemini-2.5-pro" [("user", "Test prompt")] 1,
     { content := "Test response", model_name := "gemini-2.5-pro",
       metadata := [("endpoint", "chat_completions")] }) rfl
  exact ⟨rfl, h.1, h.2⟩

/-- C5: a model whose capabilities declare a fixed temperature constraint has
its mandated value placed in the backend call regardless of the caller-supplied
temperature; any other model uses the caller-supplied temperature when it lies
within the model's allowed range and fails with `InvalidParameterError` when it
lies outside. -/
theorem generate_content_temperature_policy :
    ∀ (backend : BackendRequest → String) (prompt name : String) (temp : ℚ),
    (∀ v, (find_capabilities (resolve_model_name name)).map
        (fun caps => caps.temperature_constraint) = some (TemperatureConstraint.fixed v) →
      ∃ r, generate_content backend prompt name temp = Except.ok r ∧
        r.1.temperatureField = v) ∧
    (∀ low high, (find_capabilities (resolve_model_name name)).map
        (fun caps => caps.temperature_constraint) =
          some (TemperatureConstraint.range low high) →
      low ≤ temp → temp ≤ high →
      ∃ r, generate_content backend prompt name temp = Except.ok r ∧
        r.1.temperatureField = temp) ∧
    (∀ low high, (find_capabilities (resolve_model_name name)).map
        (fun caps => caps.temperature_constraint) =
          some (TemperatureConstraint.range low high) →
      ¬ (low ≤ temp ∧ temp ≤ high) →
      generate_content backend prompt name temp =
        Except.error GenError.invalidParameter) := by
  intro backend prompt name temp
  refine ⟨?_, ?_, ?_⟩
  · intro v hv
    cases hc : find_capabilities (resolve_model_name name) with
    | none => rw [hc] at hv; exact Option.noConfusion hv
    | some caps =>
      rw [hc] at hv
      simp only [Option.map_some'] at hv
      injection hv with hv
      simp only [generate_content, hc, hv, effective_temperature]
      split
      · exact ⟨_, rfl, rfl⟩
      · exact ⟨_, rfl, rfl⟩
  · intro low high hv h1 h2
    cases hc : find_capabilities (resolve_model_name name) with
    | none => rw [hc] at hv; exact Option.noConfusion hv
    | some caps =>
      rw [hc] at hv
      simp only [Option.map_some'] at hv
      injection hv with hv
      simp only [generate_content, hc, hv, effective_temperature, if_pos (And.intro h1 h2)]
      split
      · exact ⟨_, rfl, rfl⟩
      · exact ⟨_, rfl, rfl⟩
  · intro low high hv hno
    cases hc : find_capabilities (resolve_model_name name) with
    | none => rw [hc] at hv; exact Option.noConfusion hv
    | some caps =>
      rw [hc] at hv
      simp only [Option.map_some'] at hv
      injection hv with hv
      simp only [generate_content, hc, hv, effective_temperature, if_neg hno]

theorem generate_content_temperature_policy_witness :
    (∃ r, generate_content stub_backend "Test prompt" "o3" 5 = Except.ok r ∧
       r.1.temperatureField = 1) ∧
    (∃ r, generate_content stub_backend "Test prompt" "pro" 1 = Except.ok r ∧
       r.1.temperatureField = 1) ∧
    generate_content stub_backend "Test prompt" "pro" 3 =
      Except.error GenError.invalidParameter := by
  refine ⟨?_, ?_, ?_⟩
  · exact (generate_content_temperature_policy stub_backend "Test prompt" "o3" 5).1 1 rfl
  · exact (generate_content_temperature_policy stub_backend "Test prompt" "pro" 1).2.1
      0 2 rfl (by decide) (by decide)
  · exact (generate_content_temperature_policy stub_backend "Test prompt" "pro" 3).2.2
      0 2 rfl (by decide)

/-- C8: `generate_content` selects exactly one of two call shapes based on the
resolved model — the distinguished extended-compute model routes to the
responses endpoint shape, every other model to the standard chat-completion
shape — and the response's metadata map records which endpoint shape was used. -/
theorem generate_content_endpoint_routing :
    (∀ (backend : BackendRequest → String) (prompt name : String) (temp : ℚ)
       (r : BackendRequest × ModelResponse),
      generate_content backend prompt name temp = Except.ok r →
      r.1.isResponsesShape = (resolve_model_name name == EXTENDED_COMPUTE_MODEL) ∧
      alistLookup r.2.metadata "endpoint" =
        some (if r.1.isResponsesShape then "responses" else "chat_completions")) ∧
    (∀ (backend : BackendRequest → String) (prompt : String),
      ∃ r, generate_content backend prompt "o3-pro" 1 = Except.ok r ∧
        r.1.isResponsesShape = true ∧ r.1.modelField = "o3-pro-2025-06-10" ∧
        alistLookup r.2.metadata "endpoint" = some "responses") ∧
    (∀ (backend : BackendRequest → String) (prompt : String),
      ∃ r, generate_content backend prompt "o3" 1 = Except.ok r ∧
        r.1.isResponsesShape = false ∧
        alistLookup r.2.metadata "endpoint" = some "chat_completions") := by
  refine ⟨?_, ?_, ?_⟩
  · intro backend prompt name temp r h
    simp only [generate_content] at h
    split at h
    · exact Except.noConfusion h
    · split at h
      · exact Except.noConfusion h
      · split at h
        · rename_i hsh
          injection h with h1
          subst h1
          exact ⟨by simp [BackendRequest.isResponsesShape, hsh], rfl⟩
        · rename_i hsh
          injection h with h1
          subst h1
          refine ⟨?_, rfl⟩
          simp only [BackendRequest.isResponsesShape]
          cases hb : (resolve_model_name name == EXTENDED_COMPUTE_MODEL) with
          | false => rfl
          | true => exact absurd hb hsh
  · intro backend prompt
    exact ⟨_, rfl, rfl, rfl, rfl⟩
  · intro backend prompt
    exact ⟨_, rfl, rfl, rfl⟩

theorem generate_content_endpoint_routing_witness :
    generate_content stub_backend "What is 2 + 2?" "o3-pro" 1 =
      Except.ok (BackendRequest.responses "o3-pro-2025-06-10" "user" "What is 2 + 2?" 1,
        { content := "Test response", model_name := "o3-pro-2025-06-10",
          metadata := [("endpoint", "responses")] }) ∧
    (BackendRequest.responses "o3-pro-2025-06-10" "user" "What is 2 + 2?" 1).isResponsesShape =
      (resolve_model_name "o3-pro" == EXTENDED_COMPUTE_MODEL) ∧
    alistLookup ({ content := "Test response", model_name := "o3-pro-2025-06-10",
                   metadata := [("endpoint", "responses")] } : ModelResponse).metadata
        "endpoint" = some "responses" := by
  have h := generate_content_endpoint_routing.1 stub_backend "What is 2 + 2?" "o3-pro" 1
    (BackendRequest.responses "o3-pro-2025-06-10" "user" "What is 2 + 2?" 1,
     { content := "Test response", model_name := "o3-pro-2025-06-10",
       metadata := [("endpoint", "responses")] }) rfl
  exact ⟨rfl, h.1, h.2⟩

end ZenMCP
